import Mathlib

/-!
Verification of the `autostruct` code generator (`src/generator/code.rs`).

The development shallowly embeds the generator: the `database` schema model,
the `rust::Type` tagged union, the `Snippet` accumulator with
its import/dependency bookkeeping, and the `Generator` orchestration
(`code_from_enums`, `code_from_composites`, `code_from_tables`,
`add_type_imports`, `add_framework_macros`, `add_framework_attribute`,
`format_name`, `Snippet::finalize`, `generate_code`).

Rust `String`s are Lean `String`s; the source's `HashSet<String>` fields are
modelled as membership-deduplicated lists (`insertSet`), with the incidental
iteration order of the Rust hash set exposed explicitly through
`Snippet.finalizeWith`.  The `cruet` inflection crate and the `rust`/
`database` modules are outside `src/`; their definitions below are marked
`Modelled from the spec:`.
-/

namespace Autostruct

/-- Modelled from the spec: the generation configuration's framework
selection has "exactly two framework selections — none and a named
persistence-framework convention" (the `Framework` enum of
`generator/runner.rs`, used as `Framework::None` / `Framework::Sqlx`
in `code.rs`). -/
inductive Framework where
  | None
  | Sqlx
deriving DecidableEq, Repr

/-- Formatting options applied to the generated code (struct `Options`
in `code.rs`): `singular` switches the singular name transform on,
`framework` selects the persistence framework. -/
structure Options where
  singular : Bool
  framework : Framework
deriving DecidableEq, Repr

/-- Modelled from the spec: a schema enum value (`database::EnumValue`,
declared outside `src/`): just its schema-level name. -/
structure EnumValue where
  name : String
deriving DecidableEq, Repr

/-- Modelled from the spec: a schema enumeration (`database::Enum`):
name and ordered sequence of values. -/
structure DbEnum where
  name : String
  values : List EnumValue
deriving DecidableEq, Repr

/-- Modelled from the spec: a composite-type attribute
(`database::Attribute`): name and native data type name. -/
structure Attribute where
  name : String
  data_type : String
deriving DecidableEq, Repr

/-- Modelled from the spec: a schema composite type
(`database::CompositeType`): name and ordered attributes. -/
structure CompositeType where
  name : String
  attributes : List Attribute
deriving DecidableEq, Repr

/-- Modelled from the spec: a table column (`database::Column`): name,
native type name (`udt_name`), and nullability flag. -/
structure Column where
  name : String
  udt_name : String
  is_nullable : Bool
deriving DecidableEq, Repr

/-- Modelled from the spec: a schema table (`database::Table`): name and
ordered columns. -/
structure Table where
  name : String
  columns : List Column
deriving DecidableEq, Repr

/-- Modelled from the spec: the schema — "ordered collections of Enum,
CompositeType, Table" (`database::Schema`). -/
structure Schema where
  enumerations : List DbEnum
  composite_types : List CompositeType
  tables : List Table
deriving DecidableEq, Repr

/-- Modelled from the spec: the `rust::Type` tagged union over native
semantic kinds, "plus unlisted primitives passed through unlabeled"
(variant `Primitive`).  The variants and their names are exactly the ones
matched by `Generator::add_type_imports` in `code.rs`. -/
inductive RustType where
  | Uuid
  | Date
  | Time
  | Timestamp
  | TimestampWithTz
  | Interval
  | Decimal
  | IpNetwork
  | Json
  | Tree
  | Query
  | Money
  | Option (inner : RustType)
  | Vector (inner : RustType)
  | Range (inner : RustType)
  | Custom (name : String)
  | Primitive (name : String)
deriving DecidableEq, Repr

/-- Modelled from the spec: the `rust` module's Display rendering of a
mapped type into a target-language type expression (e.g. the spec's
`Option<String-equivalent>` example); wrappers render recursively,
`Custom`/unlisted primitives pass their name through. -/
def RustType.display : RustType → String
  | .Uuid => "Uuid"
  | .Date => "NaiveDate"
  | .Time => "NaiveTime"
  | .Timestamp => "NaiveDateTime"
  | .TimestampWithTz => "DateTime<Utc>"
  | .Interval => "PgInterval"
  | .Decimal => "Decimal"
  | .IpNetwork => "IpNetwork"
  | .Json => "Value"
  | .Tree => "LTree"
  | .Query => "TSQuery"
  | .Money => "PgMoney"
  | .Option inner => "Option<" ++ inner.display ++ ">"
  | .Vector inner => "Vec<" ++ inner.display ++ ">"
  | .Range inner => "PgRange<" ++ inner.display ++ ">"
  | .Custom name => name
  | .Primitive name => name

/-- Whether a mapped type is the `Option` wrapper (the shape tested by
`add_framework_attribute`'s `if let Type::Option(_)`). -/
def RustType.isOption : RustType → Bool
  | .Option _ => true
  | _ => false

/-- Rust `str::starts_with` on strings, as used by
`name.starts_with("postgis::")` in `add_type_imports`. -/
def strStartsWith (s pat : String) : Bool :=
  List.isPrefixOf pat.data s.data

/-- Rust `str::contains` on strings, as used by `name.contains("::")` in
`add_type_imports`: some tail of `s` starts with `pat`. -/
def strContains (s pat : String) : Bool :=
  s.data.tails.any (fun t => List.isPrefixOf pat.data t)

/-- Splits a character list at `'_'` or `'-'` separators, accumulating the
current word in reverse. -/
def splitSepAux : List Char → List Char → List (List Char)
  | [], acc => [acc.reverse]
  | c :: rest, acc =>
    if c = '_' ∨ c = '-' then acc.reverse :: splitSepAux rest []
    else splitSepAux rest (c :: acc)

/-- Capitalizes one word: first character upper-cased, rest lower-cased. -/
def capitalizeWord : List Char → List Char
  | [] => []
  | c :: cs => c.toUpper :: cs.map Char.toLower

/-- Modelled from the spec: `cruet`'s `to_pascal_case` — "case conversion
to the target declaration-name convention (capitalized, no separators)":
split the raw identifier at separators, capitalize each word, join. -/
def to_pascal_case (s : String) : String :=
  String.mk ((splitSepAux s.data []).map capitalizeWord).flatten

/-- Heuristic plural-suffix stripping on the reversed character list:
`…ies → …y`; `…xes/…zes/…ches/…shes/…sses` drop the `es`; a trailing `s`
(but not `ss`) is dropped; anything else is left unchanged. -/
def singularizeRev (l : List Char) : List Char :=
  if List.isPrefixOf ['s', 'e', 'i'] l then 'y' :: l.drop 3
  else if List.isPrefixOf ['s', 'e', 'x'] l then l.drop 2
  else if List.isPrefixOf ['s', 'e', 'z'] l then l.drop 2
  else if List.isPrefixOf ['s', 'e', 'h', 'c'] l then l.drop 2
  else if List.isPrefixOf ['s', 'e', 'h', 's'] l then l.drop 2
  else if List.isPrefixOf ['s', 'e', 's', 's'] l then l.drop 2
  else if List.isPrefixOf ['s', 's'] l then l
  else if List.isPrefixOf ['s'] l then l.drop 1
  else l

/-- Modelled from the spec: `cruet`'s `to_singular` — "singularization is a
linguistic heuristic (e.g., strips trailing s/es …) — if the raw name is
already singular or ambiguous, conversion is a no-op returning the input
unchanged".  Implemented by suffix rules on the reversed characters. -/
def to_singular (s : String) : String :=
  String.mk (singularizeRev s.data.reverse).reverse

/-- A generated-code accumulator (struct `Snippet` in `code.rs`): id,
the import set, code body, dependency set.  The source's `HashSet<String>`
fields are modelled as membership-deduplicated lists in insertion order;
the hash set's incidental iteration order is modelled separately by
`Snippet.finalizeWith`. -/
structure Snippet where
  id : String
  imports : List String
  code : String
  dependencies : List String
deriving DecidableEq, Repr

/-- Set-semantics insertion for the modelled `HashSet<String>`: inserting
an element already present leaves the set unchanged. -/
def insertSet (s : List String) (x : String) : List String :=
  if x ∈ s then s else s ++ [x]

/-- `Snippet::new`. -/
def Snippet.new (id : String) : Snippet :=
  { id := id, imports := [], code := "", dependencies := [] }

/-- `Snippet::add_import`: inserts into the import set. -/
def Snippet.add_import (sn : Snippet) (i : String) : Snippet :=
  { sn with imports := insertSet sn.imports i }

/-- `Snippet::add_dependency`: inserts into the dependency set. -/
def Snippet.add_dependency (sn : Snippet) (d : String) : Snippet :=
  { sn with dependencies := insertSet sn.dependencies d }

/-- `Snippet::finalize`, with the enumeration order of the two hash sets
made explicit: the source iterates `&self.imports` and
`&self.dependencies`, whose order is incidental to the hash-set state;
`impOrder`/`depOrder` stand for those enumerations.  Emits one
`use <import>;` line per import, then one `use super::<PascalCase dep>;`
line per dependency, then a blank line when either set is non-empty,
then the accumulated body. -/
def Snippet.finalizeWith (sn : Snippet) (impOrder depOrder : List String) : Snippet :=
  let final_code := ""
  let final_code := impOrder.foldl (fun c i => c ++ ("use " ++ i ++ ";\n")) final_code
  let final_code :=
    depOrder.foldl (fun c d => c ++ ("use super::" ++ to_pascal_case d ++ ";\n")) final_code
  let final_code :=
    if !sn.imports.isEmpty || !sn.dependencies.isEmpty then final_code ++ "\n" else final_code
  { sn with code := final_code ++ sn.code }

/-- `Snippet::finalize` at the canonical (insertion-order) enumeration of
the modelled sets. -/
def Snippet.finalize (sn : Snippet) : Snippet :=
  sn.finalizeWith sn.imports sn.dependencies

/-- Modelled from the spec: the injected schema provider capability
(trait `database::InfoProvider`, declared outside `src/`): `get_schema`
"may fail with a provider-defined error" (error type `E`), and
`type_name_from` is the total native-type-name → `rust::Type` mapper used
by `code_from_composites`/`code_from_tables`. -/
structure InfoProvider (E : Type) where
  get_schema : Except E Schema
  type_name_from : String → RustType

/-- The generator (struct `Generator` in `code.rs`): options plus the
injected provider. -/
structure Generator (E : Type) where
  options : Options
  provider : InfoProvider E

variable {E : Type}

/-- `Generator::format_name`: applies the singular transform when the
`singular` option is set, otherwise returns the name unchanged. -/
def Generator.format_name (g : Generator E) (name : String) : String :=
  if g.options.singular then to_singular name else name

/-- `Generator::add_type_imports`: the kind → import table of `code.rs`
lines 150–185, recursing through `Option`/`Vector`/`Range`; the `Custom`
arm classifies by name (postgis namespace / `Oid` / plain name), and the
final wildcard arm adds nothing. -/
def Generator.add_type_imports (g : Generator E) (sn : Snippet) (t : RustType) : Snippet :=
  match t with
  | .Uuid => sn.add_import "uuid::Uuid"
  | .Date => sn.add_import "chrono::NaiveDate"
  | .Time => sn.add_import "chrono::NaiveTime"
  | .Timestamp => sn.add_import "chrono::NaiveDateTime"
  | .TimestampWithTz => sn.add_import "chrono::\x7bDateTime, Utc\x7d"
  | .Interval => sn.add_import "sqlx::postgres::types::PgInterval"
  | .Decimal => sn.add_import "rust_decimal::Decimal"
  | .IpNetwork => sn.add_import "ipnetwork::IpNetwork"
  | .Json => sn.add_import "serde_json::Value"
  | .Tree => sn.add_import "postgres_types::LTree"
  | .Query => sn.add_import "postgres_types::TSQuery"
  | .Option inner => g.add_type_imports sn inner
  | .Vector inner => g.add_type_imports sn inner
  | .Range inner => g.add_type_imports (sn.add_import "sqlx::postgres::types::PgRange") inner
  | .Money => sn.add_import "sqlx::postgres::types::PgMoney"
  | .Custom name =>
    if strStartsWith name "postgis::" then sn.add_import "postgis"
    else if name = "Oid" then sn.add_import "sqlx::postgres::types::Oid"
    else if !strContains name "::" then sn.add_dependency name
    else sn
  | .Primitive _ => sn

/-- The derive line pushed by `Generator::add_framework_macros` for table
structs, per framework. -/
def frameworkDerivesTable (fw : Framework) : String :=
  match fw with
  | .None => "#[derive(Debug, Clone)]\n"
  | .Sqlx => "#[derive(Debug, Clone, sqlx::FromRow)]\n"

/-- `Generator::add_framework_macros`: pushes the framework-specific
derive line for a table struct. -/
def Generator.add_framework_macros (g : Generator E) (sn : Snippet) : Snippet :=
  { sn with code := sn.code ++ frameworkDerivesTable g.options.framework }

/-- `Generator::add_framework_attribute`: under `Sqlx`, fields whose
mapped type is `Option` get the `#[sqlx(default)]` marker line; all other
cases leave the snippet unchanged. -/
def Generator.add_framework_attribute (g : Generator E) (rust_type : RustType)
    (sn : Snippet) : Snippet :=
  match g.options.framework with
  | .Sqlx =>
    match rust_type with
    | .Option _ => { sn with code := sn.code ++ "    #[sqlx(default)]\n" }
    | _ => sn
  | .None => sn

/-- The derive line of `code_from_enums`, per framework. -/
def frameworkDerivesEnum (fw : Framework) : String :=
  match fw with
  | .None => "#[derive(Debug, Clone, PartialEq, Eq)]\n"
  | .Sqlx => "#[derive(Debug, Clone, PartialEq, Eq, sqlx::Type)]\n"

/-- The derive line of `code_from_composites`, per framework. -/
def frameworkDerivesComposite (fw : Framework) : String :=
  match fw with
  | .None => "#[derive(Debug, Clone)]\n"
  | .Sqlx => "#[derive(Debug, Clone, sqlx::Type)]\n"

/-- The per-value loop body of `code_from_enums`: under `Sqlx` push the
rename marker carrying the schema spelling verbatim, then push the
PascalCase member line. -/
def Generator.enumValueStep (g : Generator E) (c : String) (value : EnumValue) : String :=
  let c :=
    if g.options.framework = Framework.Sqlx then
      c ++ ("    #[sqlx(rename = \"" ++ value.name ++ "\")]\n")
    else c
  c ++ ("    " ++ to_pascal_case value.name ++ ",\n")

/-- The per-enum closure body of `Generator::code_from_enums`. -/
def Generator.enumSnippet (g : Generator E) (e : DbEnum) : Snippet :=
  let name := to_pascal_case e.name
  let snippet := Snippet.new name
  let snippet :=
    { snippet with
      code := snippet.code ++ frameworkDerivesEnum g.options.framework
        ++ ("pub enum " ++ name ++ " \x7b\n") }
  let snippet := { snippet with code := e.values.foldl g.enumValueStep snippet.code }
  { snippet with code := snippet.code ++ "\x7d" }

/-- `Generator::code_from_enums`: one snippet per enumeration. -/
def Generator.code_from_enums (g : Generator E) (enums : List DbEnum) : List Snippet :=
  enums.map g.enumSnippet

/-- The per-attribute loop body of `code_from_composites`: map the native
type, record its imports/dependencies, add the per-field framework
attribute, push the field line. -/
def Generator.compositeAttrStep (g : Generator E) (sn : Snippet) (attr : Attribute) : Snippet :=
  let rust_type := g.provider.type_name_from attr.data_type
  let sn := g.add_type_imports sn rust_type
  let sn := g.add_framework_attribute rust_type sn
  { sn with code := sn.code ++ ("    pub " ++ attr.name ++ ": " ++ rust_type.display ++ ",\n") }

/-- The per-composite closure body of `Generator::code_from_composites`. -/
def Generator.compositeSnippet (g : Generator E) (composite : CompositeType) : Snippet :=
  let table_name := g.format_name composite.name
  let snippet := Snippet.new table_name
  let snippet :=
    { snippet with
      code := snippet.code ++ frameworkDerivesComposite g.options.framework
        ++ ("pub struct " ++ to_pascal_case table_name ++ " \x7b\n") }
  let snippet := composite.attributes.foldl g.compositeAttrStep snippet
  { snippet with code := snippet.code ++ "\x7d" }

/-- `Generator::code_from_composites`: one snippet per composite type. -/
def Generator.code_from_composites (g : Generator E) (composites : List CompositeType) :
    List Snippet :=
  composites.map g.compositeSnippet

/-- The nullable wrap of `code_from_tables`: the provider-mapped type,
wrapped in `Option` when the column is nullable. -/
def Generator.columnType (g : Generator E) (column : Column) : RustType :=
  if column.is_nullable then RustType.Option (g.provider.type_name_from column.udt_name)
  else g.provider.type_name_from column.udt_name

/-- The per-column loop body of `code_from_tables`: compute the column
type, record its imports/dependencies, add the per-field framework
attribute, push the field line. -/
def Generator.tableColumnStep (g : Generator E) (sn : Snippet) (column : Column) : Snippet :=
  let rust_type := g.columnType column
  let sn := g.add_type_imports sn rust_type
  let sn := g.add_framework_attribute rust_type sn
  { sn with code := sn.code ++ ("    pub " ++ column.name ++ ": " ++ rust_type.display ++ ",\n") }

/-- The per-table closure body of `Generator::code_from_tables`. -/
def Generator.tableSnippet (g : Generator E) (table : Table) : Snippet :=
  let table_name := g.format_name table.name
  let snippet := Snippet.new table_name
  let snippet := g.add_framework_macros snippet
  let snippet :=
    { snippet with
      code := snippet.code ++ ("pub struct " ++ to_pascal_case table_name ++ " \x7b\n") }
  let snippet := table.columns.foldl g.tableColumnStep snippet
  { snippet with code := snippet.code ++ "\x7d" }

/-- `Generator::code_from_tables`: one snippet per table. -/
def Generator.code_from_tables (g : Generator E) (tables : List Table) : List Snippet :=
  tables.map g.tableSnippet

/-- `Generator::generate_code`: fetch the schema (propagating the
provider's error), build the snippets for enums, composites and tables in
schema order, finalize every snippet, return the ordered list. -/
def Generator.generate_code (g : Generator E) : Except E (List Snippet) :=
  match g.provider.get_schema with
  | .error e => .error e
  | .ok schema =>
    let snippets := g.code_from_enums schema.enumerations
      ++ g.code_from_composites schema.composite_types
      ++ g.code_from_tables schema.tables
    .ok (snippets.map Snippet.finalize)

/-! ### Auxiliary string and fold lemmas -/

theorem strFoldl_eq (l : List String) :
    ∀ c : String, List.foldl (fun r s => r ++ s) c l = c ++ String.join l := by
  induction l with
  | nil => intro c; exact (String.append_empty c).symm
  | cons a l ih =>
    intro c
    have hj : String.join (a :: l) = a ++ String.join l := by
      show List.foldl (fun r s => r ++ s) ("" ++ a) l = a ++ String.join l
      rw [ih ("" ++ a), String.empty_append]
    simp only [List.foldl_cons]
    rw [ih (c ++ a), hj, String.append_assoc]

theorem strJoin_cons (a : String) (l : List String) :
    String.join (a :: l) = a ++ String.join l := by
  show List.foldl (fun r s => r ++ s) ("" ++ a) l = a ++ String.join l
  rw [strFoldl_eq l ("" ++ a), String.empty_append]

/-- A left fold whose step appends a per-element fragment to a string
accumulator equals the accumulator followed by the joined fragments. -/
theorem foldl_stringFrag {α : Type} (step : String → α → String) (frag : α → String)
    (h : ∀ c x, step c x = c ++ frag x) :
    ∀ (l : List α) (c : String), l.foldl step c = c ++ String.join (l.map frag) := by
  intro l
  induction l with
  | nil => intro c; exact (String.append_empty c).symm
  | cons a l ih =>
    intro c
    simp only [List.foldl_cons, List.map_cons]
    rw [h, ih, strJoin_cons, String.append_assoc]

/-- A left fold over snippets whose step appends a per-element fragment to
the `code` field: the final code is the initial code followed by the joined
fragments. -/
theorem foldl_snippet_code {α : Type} (step : Snippet → α → Snippet) (frag : α → String)
    (h : ∀ sn x, (step sn x).code = sn.code ++ frag x) :
    ∀ (l : List α) (sn : Snippet), (l.foldl step sn).code = sn.code ++ String.join (l.map frag) := by
  intro l
  induction l with
  | nil => intro sn; exact (String.append_empty sn.code).symm
  | cons a l ih =>
    intro sn
    simp only [List.foldl_cons, List.map_cons]
    rw [ih, h, strJoin_cons, String.append_assoc]

/-- A left fold over snippets whose step preserves a projection preserves it
globally. -/
theorem foldl_snippet_pres {α β : Type} (p : Snippet → β) (step : Snippet → α → Snippet)
    (h : ∀ sn x, p (step sn x) = p sn) :
    ∀ (l : List α) (sn : Snippet), p (l.foldl step sn) = p sn := by
  intro l
  induction l with
  | nil => intro sn; rfl
  | cons a l ih => intro sn; rw [List.foldl_cons, ih, h]

/-! ### Field-preservation lemmas for the import resolver -/

theorem add_type_imports_code_id (g : Generator E) :
    ∀ (t : RustType) (sn : Snippet),
      (g.add_type_imports sn t).code = sn.code ∧ (g.add_type_imports sn t).id = sn.id := by
  intro t
  induction t with
  | Uuid => intro sn; exact ⟨rfl, rfl⟩
  | Date => intro sn; exact ⟨rfl, rfl⟩
  | Time => intro sn; exact ⟨rfl, rfl⟩
  | Timestamp => intro sn; exact ⟨rfl, rfl⟩
  | TimestampWithTz => intro sn; exact ⟨rfl, rfl⟩
  | Interval => intro sn; exact ⟨rfl, rfl⟩
  | Decimal => intro sn; exact ⟨rfl, rfl⟩
  | IpNetwork => intro sn; exact ⟨rfl, rfl⟩
  | Json => intro sn; exact ⟨rfl, rfl⟩
  | Tree => intro sn; exact ⟨rfl, rfl⟩
  | Query => intro sn; exact ⟨rfl, rfl⟩
  | Money => intro sn; exact ⟨rfl, rfl⟩
  | Option inner ih => intro sn; exact ih sn
  | Vector inner ih => intro sn; exact ih sn
  | Range inner ih => intro sn; exact ih (sn.add_import "sqlx::postgres::types::PgRange")
  | Custom name =>
    intro sn
    simp only [Generator.add_type_imports]
    split_ifs <;> exact ⟨rfl, rfl⟩
  | Primitive name => intro sn; exact ⟨rfl, rfl⟩

theorem add_type_imports_code (g : Generator E) (t : RustType) (sn : Snippet) :
    (g.add_type_imports sn t).code = sn.code :=
  (add_type_imports_code_id g t sn).1

theorem add_type_imports_id (g : Generator E) (t : RustType) (sn : Snippet) :
    (g.add_type_imports sn t).id = sn.id :=
  (add_type_imports_code_id g t sn).2

/-! ### The per-field framework attribute as a fragment -/

/-- The marker text `add_framework_attribute` appends: the
default-when-absent marker exactly under `Sqlx` for `Option`-shaped types,
empty otherwise. -/
def attrMarker (fw : Framework) (t : RustType) : String :=
  match fw, t with
  | Framework.Sqlx, RustType.Option _ => "    #[sqlx(default)]\n"
  | _, _ => ""

theorem add_framework_attribute_eq (g : Generator E) (t : RustType) (sn : Snippet) :
    g.add_framework_attribute t sn
      = { sn with code := sn.code ++ attrMarker g.options.framework t } := by
  unfold Generator.add_framework_attribute attrMarker
  cases hfw : g.options.framework <;> cases t <;> simp [String.append_empty]

/-! ### Per-entity fragment views and structural code lemmas -/

/-- The code fragment one table column contributes: the conditional
default-when-absent marker followed by the field line. -/
def Generator.tableColumnFragment (g : Generator E) (column : Column) : String :=
  attrMarker g.options.framework (g.columnType column)
    ++ ("    pub " ++ column.name ++ ": " ++ (g.columnType column).display ++ ",\n")

theorem tableColumnStep_code (g : Generator E) (sn : Snippet) (column : Column) :
    (g.tableColumnStep sn column).code = sn.code ++ g.tableColumnFragment column := by
  unfold Generator.tableColumnStep Generator.tableColumnFragment
  simp [add_framework_attribute_eq, add_type_imports_code, String.append_assoc]

theorem tableColumnStep_id (g : Generator E) (sn : Snippet) (column : Column) :
    (g.tableColumnStep sn column).id = sn.id := by
  unfold Generator.tableColumnStep
  simp [add_framework_attribute_eq, add_type_imports_id]

/-- The code fragment one composite attribute contributes. -/
def Generator.attributeFragment (g : Generator E) (attr : Attribute) : String :=
  attrMarker g.options.framework (g.provider.type_name_from attr.data_type)
    ++ ("    pub " ++ attr.name ++ ": "
        ++ (g.provider.type_name_from attr.data_type).display ++ ",\n")

theorem compositeAttrStep_code (g : Generator E) (sn : Snippet) (attr : Attribute) :
    (g.compositeAttrStep sn attr).code = sn.code ++ g.attributeFragment attr := by
  unfold Generator.compositeAttrStep Generator.attributeFragment
  simp [add_framework_attribute_eq, add_type_imports_code, String.append_assoc]

theorem compositeAttrStep_id (g : Generator E) (sn : Snippet) (attr : Attribute) :
    (g.compositeAttrStep sn attr).id = sn.id := by
  unfold Generator.compositeAttrStep
  simp [add_framework_attribute_eq, add_type_imports_id]

/-- The code fragment one enum value contributes: under `Sqlx` the rename
marker carrying the schema spelling verbatim, then the PascalCase member
line; under `None` the member line alone. -/
def enumValueFragment (fw : Framework) (v : EnumValue) : String :=
  match fw with
  | Framework.Sqlx =>
    "    #[sqlx(rename = \"" ++ v.name ++ "\")]\n" ++ ("    " ++ to_pascal_case v.name ++ ",\n")
  | Framework.None => "    " ++ to_pascal_case v.name ++ ",\n"

theorem enumValueStep_eq (g : Generator E) (c : String) (v : EnumValue) :
    g.enumValueStep c v = c ++ enumValueFragment g.options.framework v := by
  unfold Generator.enumValueStep enumValueFragment
  cases hfw : g.options.framework <;> simp [String.append_assoc]

theorem enumSnippet_code (g : Generator E) (e : DbEnum) :
    (g.enumSnippet e).code
      = frameworkDerivesEnum g.options.framework
        ++ ("pub enum " ++ to_pascal_case e.name ++ " \x7b\n")
        ++ String.join (e.values.map (enumValueFragment g.options.framework))
        ++ "\x7d" := by
  unfold Generator.enumSnippet Snippet.new
  simp [foldl_stringFrag g.enumValueStep (enumValueFragment g.options.framework)
    (enumValueStep_eq g), String.empty_append, String.append_assoc]

theorem enumSnippet_id (g : Generator E) (e : DbEnum) :
    (g.enumSnippet e).id = to_pascal_case e.name := rfl

theorem tableSnippet_code (g : Generator E) (table : Table) :
    (g.tableSnippet table).code
      = frameworkDerivesTable g.options.framework
        ++ ("pub struct " ++ to_pascal_case (g.format_name table.name) ++ " \x7b\n")
        ++ String.join (table.columns.map g.tableColumnFragment)
        ++ "\x7d" := by
  unfold Generator.tableSnippet Generator.add_framework_macros Snippet.new
  simp [foldl_snippet_code g.tableColumnStep g.tableColumnFragment (tableColumnStep_code g),
    String.empty_append, String.append_assoc]

theorem tableSnippet_id (g : Generator E) (table : Table) :
    (g.tableSnippet table).id = g.format_name table.name := by
  unfold Generator.tableSnippet Generator.add_framework_macros Snippet.new
  simp [foldl_snippet_pres Snippet.id g.tableColumnStep (tableColumnStep_id g)]

theorem compositeSnippet_code (g : Generator E) (composite : CompositeType) :
    (g.compositeSnippet composite).code
      = frameworkDerivesComposite g.options.framework
        ++ ("pub struct " ++ to_pascal_case (g.format_name composite.name) ++ " \x7b\n")
        ++ String.join (composite.attributes.map g.attributeFragment)
        ++ "\x7d" := by
  unfold Generator.compositeSnippet Snippet.new
  simp [foldl_snippet_code g.compositeAttrStep g.attributeFragment (compositeAttrStep_code g),
    String.empty_append, String.append_assoc]

theorem compositeSnippet_id (g : Generator E) (composite : CompositeType) :
    (g.compositeSnippet composite).id = g.format_name composite.name := by
  unfold Generator.compositeSnippet Snippet.new
  simp [foldl_snippet_pres Snippet.id g.compositeAttrStep (compositeAttrStep_id g)]

/-! ### Idempotence of the singular transform -/

theorem isPrefixOf_shape {p l : List Char} (h : List.isPrefixOf p l = true) :
    ∃ t, l = p ++ t := by
  induction p generalizing l with
  | nil => exact ⟨l, rfl⟩
  | cons a p ih =>
    cases l with
    | nil => simp [List.isPrefixOf] at h
    | cons b t =>
      simp only [List.isPrefixOf, Bool.and_eq_true, beq_iff_eq] at h
      obtain ⟨t', ht⟩ := ih h.2
      exact ⟨t', by rw [h.1, ht]; rfl⟩

theorem singularizeRev_nil : singularizeRev [] = [] := by decide

theorem singularizeRev_fix_of_head {c : Char} (t : List Char) (hc : c ≠ 's') :
    singularizeRev (c :: t) = c :: t := by
  have hb : (('s' : Char) == c) = false := beq_eq_false_iff_ne.mpr (Ne.symm hc)
  simp [singularizeRev, List.isPrefixOf, hb]

theorem singularizeRev_idem (l : List Char) :
    singularizeRev (singularizeRev l) = singularizeRev l := by
  by_cases h1 : List.isPrefixOf ['s', 'e', 'i'] l = true
  · obtain ⟨t, rfl⟩ := isPrefixOf_shape h1
    simp [singularizeRev, List.isPrefixOf]
  by_cases h2 : List.isPrefixOf ['s', 'e', 'x'] l = true
  · obtain ⟨t, rfl⟩ := isPrefixOf_shape h2
    simp [singularizeRev, List.isPrefixOf]
  by_cases h3 : List.isPrefixOf ['s', 'e', 'z'] l = true
  · obtain ⟨t, rfl⟩ := isPrefixOf_shape h3
    simp [singularizeRev, List.isPrefixOf]
  by_cases h4 : List.isPrefixOf ['s', 'e', 'h', 'c'] l = true
  · obtain ⟨t, rfl⟩ := isPrefixOf_shape h4
    simp [singularizeRev, List.isPrefixOf]
  by_cases h5 : List.isPrefixOf ['s', 'e', 'h', 's'] l = true
  · obtain ⟨t, rfl⟩ := isPrefixOf_shape h5
    simp [singularizeRev, List.isPrefixOf]
  by_cases h6 : List.isPrefixOf ['s', 'e', 's', 's'] l = true
  · obtain ⟨t, rfl⟩ := isPrefixOf_shape h6
    simp [singularizeRev, List.isPrefixOf]
  by_cases h7 : List.isPrefixOf ['s', 's'] l = true
  · have e : singularizeRev l = l := by
      unfold singularizeRev
      rw [if_neg h1, if_neg h2, if_neg h3, if_neg h4, if_neg h5, if_neg h6, if_pos h7]
    rw [e, e]
  by_cases h8 : List.isPrefixOf ['s'] l = true
  · have e : singularizeRev l = l.drop 1 := by
      unfold singularizeRev
      rw [if_neg h1, if_neg h2, if_neg h3, if_neg h4, if_neg h5, if_neg h6, if_neg h7,
        if_pos h8]
    obtain ⟨t, rfl⟩ := isPrefixOf_shape h8
    rw [e]
    have h7' : List.isPrefixOf ['s'] t = false := by
      cases hx : List.isPrefixOf ['s'] t
      · rfl
      · exact absurd (by simp [List.isPrefixOf, hx]) h7
    cases t with
    | nil => exact singularizeRev_nil
    | cons c t' =>
      have hc : c ≠ 's' := by
        intro hcs
        rw [hcs] at h7'
        simp [List.isPrefixOf] at h7'
      exact singularizeRev_fix_of_head t' hc
  · have e : singularizeRev l = l := by
      unfold singularizeRev
      rw [if_neg h1, if_neg h2, if_neg h3, if_neg h4, if_neg h5, if_neg h6, if_neg h7,
        if_neg h8]
    rw [e, e]

theorem to_singular_idem (s : String) : to_singular (to_singular s) = to_singular s := by
  show String.mk (singularizeRev ((singularizeRev s.data.reverse).reverse).reverse).reverse
    = String.mk (singularizeRev s.data.reverse).reverse
  rw [List.reverse_reverse, singularizeRev_idem]

/-! ### The spec's kind-to-import table (refinement reference for C2) -/

/-- Whether a mapped type contains no `Custom` leaf: the fragment of the
type union covered by the spec's fixed kind-to-import table (the `Custom`
classification is specified separately). -/
def noCustom : RustType → Bool
  | .Option inner => noCustom inner
  | .Vector inner => noCustom inner
  | .Range inner => noCustom inner
  | .Custom _ => false
  | _ => true

/-- The import set required by a mapped type, written out from the spec's
kind → import table (§4.3): leaf kinds list their single import,
`Option`/`Vector` defer to the inner type, `Range` adds its own container
entry before the inner kind entries, unlisted primitives require nothing. -/
def importTable : RustType → List String
  | .Uuid => ["uuid::Uuid"]
  | .Date => ["chrono::NaiveDate"]
  | .Time => ["chrono::NaiveTime"]
  | .Timestamp => ["chrono::NaiveDateTime"]
  | .TimestampWithTz => ["chrono::\x7bDateTime, Utc\x7d"]
  | .Interval => ["sqlx::postgres::types::PgInterval"]
  | .Decimal => ["rust_decimal::Decimal"]
  | .IpNetwork => ["ipnetwork::IpNetwork"]
  | .Json => ["serde_json::Value"]
  | .Tree => ["postgres_types::LTree"]
  | .Query => ["postgres_types::TSQuery"]
  | .Money => ["sqlx::postgres::types::PgMoney"]
  | .Option inner => importTable inner
  | .Vector inner => importTable inner
  | .Range inner => "sqlx::postgres::types::PgRange" :: importTable inner
  | .Custom _ => []
  | .Primitive _ => []

/-! ### Finalize structure -/

theorem finalizeWith_code (sn : Snippet) (impOrder depOrder : List String) :
    (sn.finalizeWith impOrder depOrder).code
      = String.join (impOrder.map (fun i => "use " ++ i ++ ";\n"))
        ++ String.join (depOrder.map (fun d => "use super::" ++ to_pascal_case d ++ ";\n"))
        ++ (if sn.imports.isEmpty && sn.dependencies.isEmpty then "" else "\n")
        ++ sn.code := by
  simp only [Snippet.finalizeWith]
  rw [foldl_stringFrag (fun c i => c ++ ("use " ++ i ++ ";\n"))
      (fun i => "use " ++ i ++ ";\n") (fun _ _ => rfl) impOrder ""]
  rw [foldl_stringFrag (fun c d => c ++ ("use super::" ++ to_pascal_case d ++ ";\n"))
      (fun d => "use super::" ++ to_pascal_case d ++ ";\n") (fun _ _ => rfl) depOrder]
  cases hi : sn.imports.isEmpty <;> cases hd : sn.dependencies.isEmpty <;>
    simp [String.empty_append, String.append_empty, String.append_assoc]

theorem finalizeWith_fields (sn : Snippet) (impOrder depOrder : List String) :
    (sn.finalizeWith impOrder depOrder).id = sn.id
    ∧ (sn.finalizeWith impOrder depOrder).imports = sn.imports
    ∧ (sn.finalizeWith impOrder depOrder).dependencies = sn.dependencies :=
  ⟨rfl, rfl, rfl⟩

theorem attrMarker_sqlx (t : RustType) :
    attrMarker Framework.Sqlx t = if t.isOption then "    #[sqlx(default)]\n" else "" := by
  cases t <;> rfl

theorem attrMarker_none (t : RustType) : attrMarker Framework.None t = "" := by
  cases t <;> rfl

theorem enumSnippet_framework_only (g1 g2 : Generator E) (e : DbEnum)
    (h : g1.options.framework = g2.options.framework) :
    g1.enumSnippet e = g2.enumSnippet e := by
  unfold Generator.enumSnippet Generator.enumValueStep
  simp only [h]

/-! ### Concrete fixtures for witnesses and counterexamples -/

/-- The spec's §8 example schema: enum `status` with `active`/`past_due`
and table `users` with a nullable `text` column `email`. -/
def sampleSchema : Schema :=
  { enumerations := [{ name := "status", values := [{ name := "active" }, { name := "past_due" }] }]
  , composite_types := []
  , tables := [{ name := "users"
               , columns := [{ name := "email", udt_name := "text", is_nullable := true }] }] }

/-- A concrete native-type mapper for the fixtures: `uuid`/`date` map to
their semantic kinds, `text` to the `String` primitive, anything else
falls back to a pass-through custom type. -/
def sampleTypeMap (u : String) : RustType :=
  if u = "uuid" then RustType.Uuid
  else if u = "date" then RustType.Date
  else if u = "text" then RustType.Primitive "String"
  else RustType.Custom u

/-- A provider whose fetch succeeds with the sample schema. -/
def providerOk : InfoProvider String :=
  { get_schema := Except.ok sampleSchema, type_name_from := sampleTypeMap }

/-- A provider whose fetch fails. -/
def providerErr : InfoProvider String :=
  { get_schema := Except.error "connection failed", type_name_from := sampleTypeMap }

def gNone : Generator String :=
  { options := { singular := false, framework := Framework.None }, provider := providerOk }

def gSqlx : Generator String :=
  { options := { singular := false, framework := Framework.Sqlx }, provider := providerOk }

def gSingular : Generator String :=
  { options := { singular := true, framework := Framework.None }, provider := providerOk }

def gErr : Generator String :=
  { options := { singular := false, framework := Framework.None }, provider := providerErr }

def emailColumn : Column := { name := "email", udt_name := "text", is_nullable := true }

def usersTable : Table := { name := "users", columns := [emailColumn] }

def emptyUsersTable : Table := { name := "users", columns := [] }

def statusEnum : DbEnum :=
  { name := "status", values := [{ name := "active" }, { name := "past_due" }] }

def addressComposite : CompositeType :=
  { name := "address", attributes := [{ name := "city", data_type := "text" }] }

/-- A snippet holding two imports (uuid::Uuid and chrono::NaiveDate) in one
enumeration order. -/
def snOrderA : Snippet :=
  { id := "Sess", imports := ["uuid::Uuid", "chrono::NaiveDate"]
  , code := "pub struct Sess;", dependencies := [] }

/-- The same snippet state with the other enumeration order of the same
imports. -/
def snOrderB : Snippet :=
  { id := "Sess", imports := ["chrono::NaiveDate", "uuid::Uuid"]
  , code := "pub struct Sess;", dependencies := [] }

/-! ### Claim theorems -/

/-- C1 (amended): classification of a mapped `Custom(name)` in
`add_type_imports`: a `postgis::`-namespaced name adds the `postgis` root
root import; `Oid` adds the framework-specific Oid import; a name with
no `::` namespace separator adds no import and registers the name in the
dependency set; and a namespaced name matching neither known package adds
neither an import nor a dependency. -/
theorem custom_type_classification (g : Generator E) (sn : Snippet) (name : String) :
    (strStartsWith name "postgis::" = true →
      g.add_type_imports sn (RustType.Custom name)
        = { sn with imports := insertSet sn.imports "postgis" })
    ∧ (strStartsWith name "postgis::" = false → name = "Oid" →
      g.add_type_imports sn (RustType.Custom name)
        = { sn with imports := insertSet sn.imports "sqlx::postgres::types::Oid" })
    ∧ (strStartsWith name "postgis::" = false → name ≠ "Oid" → strContains name "::" = false →
      g.add_type_imports sn (RustType.Custom name)
        = { sn with dependencies := insertSet sn.dependencies name })
    ∧ (strStartsWith name "postgis::" = false → name ≠ "Oid" → strContains name "::" = true →
      g.add_type_imports sn (RustType.Custom name) = sn) := by
  refine ⟨fun h1 => ?_, fun h1 h2 => ?_, fun h1 h2 h3 => ?_, fun h1 h2 h3 => ?_⟩
  · simp [Generator.add_type_imports, Snippet.add_import, h1]
  · subst h2
    simp [Generator.add_type_imports, Snippet.add_import, h1]
  · simp [Generator.add_type_imports, Snippet.add_dependency, h1, h2, h3]
  · simp [Generator.add_type_imports, h1, h2, h3]

/-- C1 witness: a plain name is registered as a dependency, a
postgis-namespaced name yields the package root import. -/
theorem custom_type_classification_witness :
    (strContains "order_item" "::" = false
      ∧ gNone.add_type_imports (Snippet.new "T") (RustType.Custom "order_item")
          = { Snippet.new "T" with
              dependencies := insertSet (Snippet.new "T").dependencies "order_item" })
    ∧ (strStartsWith "postgis::ewkb::Point" "postgis::" = true
      ∧ gNone.add_type_imports (Snippet.new "T") (RustType.Custom "postgis::ewkb::Point")
          = { Snippet.new "T" with
              imports := insertSet (Snippet.new "T").imports "postgis" }) :=
  ⟨⟨by decide, (custom_type_classification gNone (Snippet.new "T") "order_item").2.2.1
      (by decide) (by decide) (by decide)⟩,
   ⟨by decide, (custom_type_classification gNone (Snippet.new "T") "postgis::ewkb::Point").1
      (by decide)⟩⟩

/-- C1 counterexample: the namespaced custom name `foo::Bar` matches
neither the postgis namespace nor `Oid`, yet `add_type_imports` registers
no dependency for it (and adds no import), contradicting the claim's "in
every other case … name is instead registered in the snippet's dependency
set". -/
theorem custom_namespaced_neither_import_nor_dependency :
    strStartsWith "foo::Bar" "postgis::" = false
    ∧ "foo::Bar" ≠ "Oid"
    ∧ (gNone.add_type_imports (Snippet.new "T") (RustType.Custom "foo::Bar")).imports = []
    ∧ (gNone.add_type_imports (Snippet.new "T") (RustType.Custom "foo::Bar")).dependencies
        = [] := by
  refine ⟨by decide, by decide, by decide, by decide⟩

/-- C2: for `Custom`-free mapped types, the imports recorded by
`add_type_imports` are exactly the spec's kind-to-import table
(`importTable`), inserted in order into the snippet's import set, and the
dependency set is untouched. -/
theorem import_table_correct (g : Generator E) (sn : Snippet) (t : RustType) :
    noCustom t = true →
      (g.add_type_imports sn t).imports = (importTable t).foldl insertSet sn.imports
      ∧ (g.add_type_imports sn t).dependencies = sn.dependencies := by
  induction t generalizing sn with
  | Uuid => exact fun _ => ⟨rfl, rfl⟩
  | Date => exact fun _ => ⟨rfl, rfl⟩
  | Time => exact fun _ => ⟨rfl, rfl⟩
  | Timestamp => exact fun _ => ⟨rfl, rfl⟩
  | TimestampWithTz => exact fun _ => ⟨rfl, rfl⟩
  | Interval => exact fun _ => ⟨rfl, rfl⟩
  | Decimal => exact fun _ => ⟨rfl, rfl⟩
  | IpNetwork => exact fun _ => ⟨rfl, rfl⟩
  | Json => exact fun _ => ⟨rfl, rfl⟩
  | Tree => exact fun _ => ⟨rfl, rfl⟩
  | Query => exact fun _ => ⟨rfl, rfl⟩
  | Money => exact fun _ => ⟨rfl, rfl⟩
  | Option inner ih => exact fun h => ih sn h
  | Vector inner ih => exact fun h => ih sn h
  | Range inner ih => exact fun h => ih (sn.add_import "sqlx::postgres::types::PgRange") h
  | Custom name => exact fun h => absurd h (by simp [noCustom])
  | Primitive name => exact fun _ => ⟨rfl, rfl⟩

/-- C2 witness: a range of optional UUIDs records the range container
entry followed by the UUID entry. -/
theorem import_table_correct_witness :
    noCustom (RustType.Range (RustType.Option RustType.Uuid)) = true
    ∧ (gNone.add_type_imports (Snippet.new "S")
        (RustType.Range (RustType.Option RustType.Uuid))).imports
        = (importTable (RustType.Range (RustType.Option RustType.Uuid))).foldl insertSet
            (Snippet.new "S").imports :=
  ⟨by decide, (import_table_correct gNone (Snippet.new "S")
      (RustType.Range (RustType.Option RustType.Uuid)) (by decide)).1⟩

/-- C3: a table snippet's code is the derive line, struct header, and the
per-column fragments in order; a nullable column's type is the `Option`
wrapping of its provider-mapped type; under `Sqlx` a column fragment
carries the `#[sqlx(default)]` marker exactly when the final mapped type
is `Option`; under `None` no fragment ever carries it. -/
theorem nullable_option_and_default_marker (g : Generator E) (table : Table) (column : Column) :
    (g.tableSnippet table).code
      = frameworkDerivesTable g.options.framework
        ++ ("pub struct " ++ to_pascal_case (g.format_name table.name) ++ " \x7b\n")
        ++ String.join (table.columns.map g.tableColumnFragment)
        ++ "\x7d"
    ∧ (column.is_nullable = true →
        g.columnType column = RustType.Option (g.provider.type_name_from column.udt_name))
    ∧ (g.options.framework = Framework.Sqlx → (g.columnType column).isOption = true →
        g.tableColumnFragment column
          = "    #[sqlx(default)]\n"
            ++ ("    pub " ++ column.name ++ ": " ++ (g.columnType column).display ++ ",\n"))
    ∧ (g.options.framework = Framework.Sqlx → (g.columnType column).isOption = false →
        g.tableColumnFragment column
          = "    pub " ++ column.name ++ ": " ++ (g.columnType column).display ++ ",\n")
    ∧ (g.options.framework = Framework.None →
        g.tableColumnFragment column
          = "    pub " ++ column.name ++ ": " ++ (g.columnType column).display ++ ",\n") := by
  refine ⟨tableSnippet_code g table, fun h => ?_, fun hf ho => ?_, fun hf ho => ?_, fun hf => ?_⟩
  · unfold Generator.columnType
    rw [if_pos h]
  · unfold Generator.tableColumnFragment
    rw [hf, attrMarker_sqlx, if_pos ho]
  · unfold Generator.tableColumnFragment
    rw [hf, attrMarker_sqlx, if_neg (by simp [ho]), String.empty_append]
  · unfold Generator.tableColumnFragment
    rw [hf, attrMarker_none, String.empty_append]

/-- C3 witness: the nullable `email: text` column under `Sqlx` maps to
`Option<String>` and its fragment carries the default marker. -/
theorem nullable_option_and_default_marker_witness :
    emailColumn.is_nullable = true
    ∧ gSqlx.columnType emailColumn = RustType.Option (RustType.Primitive "String")
    ∧ gSqlx.tableColumnFragment emailColumn
        = "    #[sqlx(default)]\n" ++ "    pub email: Option<String>,\n" := by
  refine ⟨rfl, ?_, ?_⟩
  · exact ((nullable_option_and_default_marker gSqlx usersTable emailColumn).2.1 rfl).trans
      (by decide)
  · exact ((nullable_option_and_default_marker gSqlx usersTable emailColumn).2.2.1 rfl
      (by decide)).trans (by decide)

/-- C4: `finalizeWith` renders one `use` line per import enumeration
element, then one `use super::…;` line per dependency enumeration element,
then a blank line exactly when one of the two sets is non-empty, then the
accumulated body unchanged; id/imports/dependencies are untouched; and on
a successful fetch `generate_code` is exactly the per-entity snippets in
schema order, each finalized once at the end. -/
theorem finalize_layout (sn : Snippet) (impOrder depOrder : List String)
    (g : Generator E) (s : Schema) :
    (sn.finalizeWith impOrder depOrder).code
      = String.join (impOrder.map (fun i => "use " ++ i ++ ";\n"))
        ++ String.join (depOrder.map (fun d => "use super::" ++ to_pascal_case d ++ ";\n"))
        ++ (if sn.imports.isEmpty && sn.dependencies.isEmpty then "" else "\n")
        ++ sn.code
    ∧ (sn.finalizeWith impOrder depOrder).id = sn.id
    ∧ (sn.finalizeWith impOrder depOrder).imports = sn.imports
    ∧ (sn.finalizeWith impOrder depOrder).dependencies = sn.dependencies
    ∧ (g.provider.get_schema = Except.ok s →
        g.generate_code
          = Except.ok ((g.code_from_enums s.enumerations
              ++ g.code_from_composites s.composite_types
              ++ g.code_from_tables s.tables).map Snippet.finalize)) := by
  refine ⟨finalizeWith_code sn impOrder depOrder, rfl, rfl, rfl, fun h => ?_⟩
  unfold Generator.generate_code
  rw [h]

/-- C4 witness: the sample generator's run is the finalized per-entity
snippets of the sample schema. -/
theorem finalize_layout_witness :
    gNone.provider.get_schema = Except.ok sampleSchema
    ∧ gNone.generate_code
        = Except.ok ((gNone.code_from_enums sampleSchema.enumerations
            ++ gNone.code_from_composites sampleSchema.composite_types
            ++ gNone.code_from_tables sampleSchema.tables).map Snippet.finalize) :=
  ⟨rfl, (finalize_layout (Snippet.new "W") [] [] gNone sampleSchema).2.2.2.2 rfl⟩

/-- C5: the finalized bytes depend on the incidental enumeration order of
the import hash set: two snippets holding the same import set (as a set),
same id, body and dependencies, finalize to different code, so the
rendered header order is not fixed by the inputs. -/
theorem finalize_order_dependent :
    List.Perm snOrderA.imports snOrderB.imports
    ∧ snOrderA.id = snOrderB.id
    ∧ snOrderA.code = snOrderB.code
    ∧ snOrderA.dependencies = snOrderB.dependencies
    ∧ (Snippet.finalize snOrderA).code ≠ (Snippet.finalize snOrderB).code := by
  refine ⟨by decide, rfl, rfl, rfl, by decide⟩

/-- C6: a failed schema fetch makes `generate_code` return exactly the
provider's error (so no snippets are produced), and a successful fetch
always yields an `ok` list — no later step can fail. -/
theorem generate_code_fail_fast (g : Generator E) (e : E) (s : Schema) :
    (g.provider.get_schema = Except.error e → g.generate_code = Except.error e)
    ∧ (g.provider.get_schema = Except.ok s → ∃ l, g.generate_code = Except.ok l) := by
  constructor
  · intro h
    unfold Generator.generate_code
    rw [h]
  · intro h
    exact ⟨_, by unfold Generator.generate_code; rw [h]⟩

/-- C6 witness: the failing provider's error is surfaced verbatim and the
succeeding provider always produces a snippet list. -/
theorem generate_code_fail_fast_witness :
    gErr.generate_code = Except.error "connection failed"
    ∧ (∃ l, gNone.generate_code = Except.ok l) :=
  ⟨(generate_code_fail_fast gErr "connection failed" sampleSchema).1 rfl,
   (generate_code_fail_fast gNone "" sampleSchema).2 rfl⟩

/-- C7: an enum snippet's code is the derive line, `pub enum` header with
the PascalCase enum name, and per-value fragments in order; under `Sqlx`
each value's fragment is exactly one rename marker carrying the schema
spelling verbatim followed by the PascalCase member line; under `None` it
is the member line alone. -/
theorem enum_rename_markers (g : Generator E) (e : DbEnum) (v : EnumValue) :
    (g.enumSnippet e).code
      = frameworkDerivesEnum g.options.framework
        ++ ("pub enum " ++ to_pascal_case e.name ++ " \x7b\n")
        ++ String.join (e.values.map (enumValueFragment g.options.framework))
        ++ "\x7d"
    ∧ enumValueFragment Framework.Sqlx v
        = "    #[sqlx(rename = \"" ++ v.name ++ "\")]\n"
          ++ ("    " ++ to_pascal_case v.name ++ ",\n")
    ∧ enumValueFragment Framework.None v = "    " ++ to_pascal_case v.name ++ ",\n" :=
  ⟨enumSnippet_code g e, rfl, rfl⟩

/-- C8 counterexample: for the table `users` the snippet id is `users`
while the emitted declaration is `pub struct Users`: the snippet id is not
the declaration name. -/
theorem snippet_id_vs_declaration_cex :
    (gNone.tableSnippet emptyUsersTable).id = "users"
    ∧ (gNone.tableSnippet emptyUsersTable).code
        = "#[derive(Debug, Clone)]\npub struct Users \x7b\n\x7d"
    ∧ ("users" : String) ≠ "Users" := by
  refine ⟨rfl, by decide, by decide⟩

/-- C8 (amended): for enums the snippet id equals the emitted declaration
name; for composite types and tables the declaration name appearing after
`pub struct` is the PascalCase conversion of the snippet id. -/
theorem snippet_id_and_declaration_names (g : Generator E) (e : DbEnum)
    (c : CompositeType) (t : Table) :
    ((g.enumSnippet e).id = to_pascal_case e.name
      ∧ (g.enumSnippet e).code
          = frameworkDerivesEnum g.options.framework
            ++ ("pub enum " ++ (g.enumSnippet e).id ++ " \x7b\n")
            ++ String.join (e.values.map (enumValueFragment g.options.framework))
            ++ "\x7d")
    ∧ ((g.compositeSnippet c).id = g.format_name c.name
      ∧ (g.compositeSnippet c).code
          = frameworkDerivesComposite g.options.framework
            ++ ("pub struct " ++ to_pascal_case (g.compositeSnippet c).id ++ " \x7b\n")
            ++ String.join (c.attributes.map g.attributeFragment)
            ++ "\x7d")
    ∧ ((g.tableSnippet t).id = g.format_name t.name
      ∧ (g.tableSnippet t).code
          = frameworkDerivesTable g.options.framework
            ++ ("pub struct " ++ to_pascal_case (g.tableSnippet t).id ++ " \x7b\n")
            ++ String.join (t.columns.map g.tableColumnFragment)
            ++ "\x7d") := by
  refine ⟨⟨enumSnippet_id g e, ?_⟩, ⟨compositeSnippet_id g c, ?_⟩, ⟨tableSnippet_id g t, ?_⟩⟩
  · rw [enumSnippet_id g e]
    exact enumSnippet_code g e
  · rw [compositeSnippet_id g c]
    exact compositeSnippet_code g c
  · rw [tableSnippet_id g t]
    exact tableSnippet_code g t

/-- C9: the singular-mode name transform `format_name` is idempotent. -/
theorem singular_transform_idempotent (g : Generator E) (name : String) :
    g.format_name (g.format_name name) = g.format_name name := by
  unfold Generator.format_name
  by_cases h : g.options.singular = true
  · rw [if_pos h, if_pos h, to_singular_idem]
  · rw [if_neg h, if_neg h]

/-- C10: enum snippets are identical for two generators sharing a
framework selection regardless of the singular flag (and of the provider),
and only composite/table snippet ids pass through the singular transform
`format_name`. -/
theorem singular_mode_enum_invariant (g1 g2 : Generator E) (es : List DbEnum)
    (c : CompositeType) (t : Table)
    (h : g1.options.framework = g2.options.framework) :
    g1.code_from_enums es = g2.code_from_enums es
    ∧ (g1.compositeSnippet c).id = g1.format_name c.name
    ∧ (g1.tableSnippet t).id = g1.format_name t.name := by
  refine ⟨?_, compositeSnippet_id g1 c, tableSnippet_id g1 t⟩
  unfold Generator.code_from_enums
  have hfe : Generator.enumSnippet g1 = Generator.enumSnippet g2 :=
    funext (fun e => enumSnippet_framework_only g1 g2 e h)
  rw [hfe]

/-- C10 witness: the `status` enum's snippets agree between the
singular-mode generator and the plural-mode generator. -/
theorem singular_mode_enum_invariant_witness :
    gSingular.options.framework = gNone.options.framework
    ∧ gSingular.code_from_enums [statusEnum] = gNone.code_from_enums [statusEnum] :=
  ⟨rfl, (singular_mode_enum_invariant gSingular gNone [statusEnum] addressComposite
      usersTable rfl).1⟩

end Autostruct
